import Mathlib

/-!
# CashSight (RunwayRadar) — verification of the cash-flow forecasting logic

Shallow embedding of the data pipeline of `src/app.py`:
transaction normalisation (`signed_amount`), the 90-day forecast
(`forecast_df` with `daily_net` and cumulative `balance`), the big-expense-day
ranking (`top_expense_days`), the recurring-expense detector
(`recurring_records` with `freq_label`), and the invoice schema check
(`invoice_schema_ok`).

Dates are modelled as integers (day numbers), monetary amounts as rationals.
Streamlit display code (tabs, charts, metric widgets) is not modelled; the
derived tables and the predicates deciding what enters them are.
-/

/-- A transaction row after `pd.read_csv` + `pd.to_datetime`: a parseable
date (modelled as a day number), a free-form `type` string, a numeric
amount, and an optional counterparty (`client_or_vendor`; `none` models a
NaN cell).  The unused `category`/`notes` columns are omitted. -/
structure Txn where
  date : Int
  type : String
  amount : Rat
  client_or_vendor : Option String
deriving DecidableEq

/-- ASCII lower-casing, modelling Python `str.lower()` as used on the
`type` column (the compared literals are ASCII). -/
def lower (s : String) : String :=
  String.mk (s.data.map Char.toLower)

/-- `df["signed_amount"]` (src/app.py:76-79): negate the amount exactly when
the row's type lower-cases to `"expense"`; keep it unchanged otherwise. -/
def signed_amount (t : Txn) : Rat :=
  if lower t.type = "expense" then -t.amount else t.amount

/-- `start_date = df["date"].min()` (src/app.py:82); `0` is a junk default
for the empty ledger (pandas would give NaT there). -/
def start_date (txns : List Txn) : Int :=
  ((txns.map fun t => t.date).min?).getD 0

/-- `date_range(start=start_date, end=start_date+89, freq="D")`
(src/app.py:83-84): the 90 consecutive days of the forecast horizon. -/
def date_range (txns : List Txn) : List Int :=
  (List.range 90).map fun i : Nat => start_date txns + (i : Int)

/-- `df.groupby("date")["signed_amount"].sum()` reindexed with
`fill_value=0` (src/app.py:87): the net cash movement on day `d`. -/
def daily_net (txns : List Txn) (d : Int) : Rat :=
  ((txns.filter fun t => t.date == d).map signed_amount).sum

/-- One row of `forecast_df` (src/app.py:86-89). -/
structure ForecastEntry where
  date : Int
  daily_net : Rat
  balance : Rat
deriving DecidableEq

/-- Builds the forecast rows for the given days, threading the running
balance (the `cumsum` of src/app.py:89). -/
def forecastAux (txns : List Txn) (bal : Rat) : List Int → List ForecastEntry
  | [] => []
  | d :: rest =>
    let net := daily_net txns d
    ⟨d, net, bal + net⟩ :: forecastAux txns (bal + net) rest

/-- `forecast_df` (src/app.py:86-89): one row per horizon day with its
`daily_net` and `balance = starting_balance + cumsum(daily_net)`. -/
def forecast_df (starting_balance : Rat) (txns : List Txn) : List ForecastEntry :=
  forecastAux txns starting_balance (date_range txns)

/-- `expense_days = forecast_df[forecast_df["daily_net"] < 0]`
(src/app.py:95). -/
def expense_days (starting_balance : Rat) (txns : List Txn) : List ForecastEntry :=
  (forecast_df starting_balance txns).filter fun e => decide (e.daily_net < 0)

/-- `top_expense_days` (src/app.py:95-101): expense days sorted by
`abs(daily_net)` descending (pandas sorts stably), truncated to 10. -/
def top_expense_days (starting_balance : Rat) (txns : List Txn) : List ForecastEntry :=
  ((expense_days starting_balance txns).mergeSort
    fun a b => decide (|b.daily_net| ≤ |a.daily_net|)).take 10

/-- `expenses_only = df[df["type"].str.lower() == "expense"]`
(src/app.py:104). -/
def expenses_only (txns : List Txn) : List Txn :=
  txns.filter fun t => lower t.type == "expense"

/-- Consecutive differences of a date list, modelling
`gaps = [(dates[i+1]-dates[i]).days for i in range(len(dates)-1)]`
(src/app.py:118). -/
def gaps : List Int → List Int
  | a :: b :: rest => (b - a) :: gaps (b :: rest)
  | _ => []

/-- The group's dates after `group.sort_values("date")` (src/app.py:113-114). -/
def sorted_dates (group : List Txn) : List Int :=
  (group.map fun t => t.date).mergeSort fun a b => decide (a ≤ b)

/-- `avg_gap = sum(gaps) / len(gaps)` (src/app.py:122) computed from the
group's sorted dates (division by zero yields Lean's junk value `0`; the
code guards `len(group) >= 3` before reaching it). -/
def avg_gap_of (group : List Txn) : Rat :=
  let gs := gaps (sorted_dates group)
  ((gs.map fun g => (g : Rat)).sum) / (gs.length : Rat)

/-- Python `round(q)`: round half to even (banker's rounding), as used for
`round(avg_gap)` in src/app.py:130. -/
def pyRound (q : Rat) : Int :=
  let f := q.floor
  let frac := q - (f : Rat)
  if frac < 1/2 then f
  else if 1/2 < frac then f + 1
  else if f % 2 = 0 then f else f + 1

/-- Python `round(q, n)` on exact rationals (src/app.py:145,147). -/
def roundTo (q : Rat) (n : Nat) : Rat :=
  (pyRound (q * (10 : Rat) ^ n) : Rat) / (10 : Rat) ^ n

/-- `freq_label` (src/app.py:133-140): fixed bands on the (unrounded)
average gap. -/
def freq_label (avg_gap : Rat) : String :=
  if 5 ≤ avg_gap ∧ avg_gap ≤ 9 then "Weekly-ish"
  else if 10 ≤ avg_gap ∧ avg_gap ≤ 20 then "Bi-weekly-ish"
  else if 25 ≤ avg_gap ∧ avg_gap ≤ 35 then "Monthly-ish"
  else "Recurring"

/-- One record appended to `recurring_records` (src/app.py:142-151). -/
structure RecurringRecord where
  vendor : String
  avg_gap_days : Rat
  frequency : String
  avg_amount : Rat
  last_payment_date : Int
  next_expected_date : Int
deriving DecidableEq

/-- The loop body of src/app.py:107-151 for one counterparty's expense
group: `none` models `continue` (no record emitted). -/
def processVendor (v : String) (group : List Txn) : Option RecurringRecord :=
  if group.length < 3 then none
  else if (sorted_dates group).length < 3 then none
  else if gaps (sorted_dates group) = [] then none
  else if avg_gap_of group < 5 ∨ avg_gap_of group > 45 then none
  else
    some
      { vendor := v
        avg_gap_days := roundTo (avg_gap_of group) 1
        frequency := freq_label (avg_gap_of group)
        avg_amount := roundTo (((group.map fun t => t.amount).sum) / (group.length : Rat)) 2
        last_payment_date := (sorted_dates group).getLastD 0
        next_expected_date := (sorted_dates group).getLastD 0 + pyRound (avg_gap_of group) }

/-- The distinct non-NaN counterparty names of a ledger (pandas `groupby`
keys; the `pd.isna(vendor)` rows are skipped, src/app.py:107-109). -/
def vendor_names (txns : List Txn) : List String :=
  (txns.filterMap fun t => t.client_or_vendor).dedup

/-- The rows of a counterparty's group under `groupby("client_or_vendor")`. -/
def vendor_group (txns : List Txn) (v : String) : List Txn :=
  txns.filter fun t => t.client_or_vendor == some v

/-- `recurring_records` (src/app.py:104-151): one candidate record per
counterparty of the expense-only ledger.  The final display sort of
`recurring_df` (src/app.py:153-156) is not modelled. -/
def recurring_records (txns : List Txn) : List RecurringRecord :=
  (vendor_names (expenses_only txns)).filterMap fun v =>
    processVendor v (vendor_group (expenses_only txns) v)

/-- Whether a transaction's date falls inside the 90-day forecast horizon
`[start_date, start_date + 89]` of its ledger. -/
def inHorizon (txns : List Txn) (t : Txn) : Bool :=
  decide (start_date txns ≤ t.date ∧ t.date ≤ start_date txns + 89)

/-- `required_invoice_cols` (src/app.py:267): the columns the code actually
checks on an uploaded invoice table. -/
def required_invoice_cols : List String :=
  ["client", "issue_date", "due_date", "paid_date", "amount"]

/-- `required_invoice_cols.issubset(inv.columns)` (src/app.py:268): the
invoice table passes the schema check iff every required column is
present. -/
def invoice_schema_ok (cols : List String) : Bool :=
  required_invoice_cols.all fun c => cols.contains c

/-! ## Concrete ledgers used as witnesses and counterexamples -/

/-- A counterparty with three expense payments 9 and 10 days apart:
its average gap is 9.5 days. -/
def acmeLedger : List Txn :=
  [⟨0, "expense", 100, some "Acme"⟩, ⟨9, "expense", 100, some "Acme"⟩,
   ⟨19, "expense", 100, some "Acme"⟩]

/-- A one-row ledger: a single income of 7 on day 3. -/
def incomeLedger : List Txn := [⟨3, "income", 7, none⟩]

/-- A counterparty paid every 30 days: a textbook monthly recurring
expense. -/
def rentLedger : List Txn :=
  [⟨0, "expense", 100, some "Rent"⟩, ⟨30, "expense", 100, some "Rent"⟩,
   ⟨60, "expense", 100, some "Rent"⟩]

/-- The record the recurrence detector emits for `rentLedger`. -/
def rentRecord : RecurringRecord := ⟨"Rent", 30, "Monthly-ish", 100, 60, 90⟩

/-- A ledger whose second transaction (day 200) falls outside the 90-day
horizon that starts at day 0. -/
def horizonLedgerA : List Txn :=
  [⟨0, "income", 10, none⟩, ⟨200, "expense", 5, none⟩]

/-- `horizonLedgerA` with the out-of-horizon transaction removed. -/
def horizonLedgerB : List Txn := [⟨0, "income", 10, none⟩]

/-! ## C4: the sign rule of `signed_amount` -/

/-- C4 (counterexample): the claim says every non-income type is negated,
but a `"transfer"` row keeps its positive amount: the code negates only
`"expense"` rows. -/
theorem signed_amount_nonincome_counterexample :
    signed_amount ⟨0, "transfer", 5, none⟩ = 5 ∧
      ¬ signed_amount ⟨0, "transfer", 5, none⟩ = -5 := by
  with_unfolding_all decide

/-- C4 (amended): `signed_amount` equals `-amount` exactly when the row's
type lower-cases to `"expense"`, and equals `amount` for every other type
(including types that are neither income nor expense). -/
theorem signed_amount_expense_rule (t : Txn) :
    (lower t.type = "expense" → signed_amount t = -t.amount) ∧
      (lower t.type ≠ "expense" → signed_amount t = t.amount) := by
  constructor <;> intro h <;> simp [signed_amount, h]

/-- C4 (witness): a concrete upper-case expense row is negated. -/
theorem signed_amount_expense_rule_witness :
    lower "EXPENSE" = "expense" ∧ signed_amount ⟨0, "EXPENSE", 7, none⟩ = -7 :=
  ⟨by decide, (signed_amount_expense_rule ⟨0, "EXPENSE", 7, none⟩).1 (by decide)⟩

/-! ## C6: the frequency bands of `freq_label` -/

/-- C6 (counterexample): a qualifying counterparty with average gap 9.5
days (in `[5,45]`) is labelled `"Recurring"`, yet 9.5 lies in neither
`(20,25)` nor `(35,45]` — the claim's description of the fallback bands
misses the hole `(9,10)` between the weekly and bi-weekly bands. -/
theorem freq_label_otherwise_counterexample :
    avg_gap_of acmeLedger = 19/2 ∧
      (5 ≤ avg_gap_of acmeLedger ∧ avg_gap_of acmeLedger ≤ 45) ∧
      (recurring_records acmeLedger).map (fun r => r.frequency) = ["Recurring"] ∧
      ¬ ((20 < avg_gap_of acmeLedger ∧ avg_gap_of acmeLedger < 25) ∨
          (35 < avg_gap_of acmeLedger ∧ avg_gap_of acmeLedger ≤ 45)) := by
  with_unfolding_all decide

/-- C6 (amended): on the qualifying range `[5,45]`, the label is
`"Weekly-ish"` exactly on `[5,9]`, `"Bi-weekly-ish"` exactly on `[10,20]`,
`"Monthly-ish"` exactly on `[25,35]`, and `"Recurring"` exactly on
`(9,10) ∪ (20,25) ∪ (35,45]`. -/
theorem freq_label_bands (q : ℚ) (h5 : 5 ≤ q) (h45 : q ≤ 45) :
    (freq_label q = "Weekly-ish" ↔ 5 ≤ q ∧ q ≤ 9) ∧
      (freq_label q = "Bi-weekly-ish" ↔ 10 ≤ q ∧ q ≤ 20) ∧
      (freq_label q = "Monthly-ish" ↔ 25 ≤ q ∧ q ≤ 35) ∧
      (freq_label q = "Recurring" ↔
        (9 < q ∧ q < 10) ∨ (20 < q ∧ q < 25) ∨ (35 < q ∧ q ≤ 45)) := by
  unfold freq_label
  split_ifs with h1 h2 h3
  · refine ⟨iff_of_true rfl h1, iff_of_false (by decide) ?_,
      iff_of_false (by decide) ?_, iff_of_false (by decide) ?_⟩
    · rintro ⟨hb, -⟩; linarith [h1.2]
    · rintro ⟨hb, -⟩; linarith [h1.2]
    · rintro (⟨hb, -⟩ | ⟨hb, -⟩ | ⟨hb, -⟩) <;> linarith [h1.2]
  · refine ⟨iff_of_false (by decide) ?_, iff_of_true rfl h2,
      iff_of_false (by decide) ?_, iff_of_false (by decide) ?_⟩
    · rintro ⟨-, hb⟩; exact h1 ⟨h5, by linarith [h2.1]⟩
    · rintro ⟨hb, -⟩; linarith [h2.2]
    · rintro (⟨-, hb⟩ | ⟨hb, -⟩ | ⟨hb, -⟩) <;> linarith [h2.1, h2.2]
  · refine ⟨iff_of_false (by decide) ?_, iff_of_false (by decide) ?_,
      iff_of_true rfl h3, iff_of_false (by decide) ?_⟩
    · rintro ⟨-, hb⟩; linarith [h3.1]
    · rintro ⟨-, hb⟩; linarith [h3.1]
    · rintro (⟨-, hb⟩ | ⟨-, hb⟩ | ⟨hb, -⟩) <;> linarith [h3.1, h3.2]
  · push_neg at h1 h2 h3
    have h9 : 9 < q := h1 h5
    refine ⟨iff_of_false (by decide) ?_, iff_of_false (by decide) ?_,
      iff_of_false (by decide) ?_, iff_of_true rfl ?_⟩
    · rintro ⟨-, hb⟩; linarith
    · rintro ⟨hb, hb2⟩; linarith [h2 hb]
    · rintro ⟨hb, hb2⟩; linarith [h3 hb]
    · rcases lt_or_le q 10 with h10 | h10
      · exact Or.inl ⟨h9, h10⟩
      rcases lt_or_le q 25 with h25 | h25
      · exact Or.inr (Or.inl ⟨h2 h10, h25⟩)
      exact Or.inr (Or.inr ⟨h3 h25, h45⟩)

/-- C6 (witness): a 30-day average gap is labelled `"Monthly-ish"`. -/
theorem freq_label_bands_witness :
    (5 ≤ (30 : ℚ) ∧ (30 : ℚ) ≤ 45) ∧ freq_label 30 = "Monthly-ish" :=
  ⟨by norm_num,
    ((freq_label_bands 30 (by norm_num) (by norm_num)).2.2.1).mpr (by norm_num)⟩

/-! ## C8: the invoice schema check -/

/-- C8 (code bug): the code's required-column set for invoices omits
`invoice_id`, so an invoice table carrying only the other five columns
passes the schema check, although both the spec and the uploader's own
help text (src/app.py:37) list `invoice_id` as required. -/
theorem invoice_check_accepts_missing_invoice_id :
    invoice_schema_ok ["client", "issue_date", "due_date", "paid_date", "amount"] = true ∧
      ¬ ("invoice_id" ∈ required_invoice_cols) := by
  decide

/-! ## Structural lemmas about the forecast -/

theorem forecastAux_length (txns : List Txn) (bal : Rat) (days : List Int) :
    (forecastAux txns bal days).length = days.length := by
  induction days generalizing bal with
  | nil => rfl
  | cons d rest ih => simp [forecastAux, ih]

theorem forecast_df_length (sb : Rat) (txns : List Txn) :
    (forecast_df sb txns).length = 90 := by
  simp [forecast_df, forecastAux_length, date_range]

theorem forecastAux_get (txns : List Txn) (days : List Int) :
    ∀ (bal : Rat) (i : Nat) (hi : i < days.length),
      (forecastAux txns bal days).get
          ⟨i, by rw [forecastAux_length]; exact hi⟩ =
        ⟨days.get ⟨i, hi⟩, daily_net txns (days.get ⟨i, hi⟩),
          bal + (((days.take (i + 1)).map (daily_net txns)).sum)⟩ := by
  induction days with
  | nil => intro bal i hi; exact absurd hi (by simp)
  | cons d rest ih =>
    intro bal i hi
    match i with
    | 0 => simp [forecastAux]
    | (j + 1) =>
      have hj : j < rest.length := by simpa using hi
      have hIH := ih (bal + daily_net txns d) j hj
      simp only [forecastAux, List.get_cons_succ, hIH, List.take_succ_cons,
        List.map_cons, List.sum_cons]
      exact congrArg _ (by ring_nf)

theorem forecastAux_map_net (txns : List Txn) (bal : Rat) (days : List Int) :
    (forecastAux txns bal days).map (fun e => e.daily_net) =
      days.map (daily_net txns) := by
  induction days generalizing bal with
  | nil => rfl
  | cons d rest ih => simp [forecastAux, ih]

/-! ## The minimum date -/

theorem int_min?_eq_some_iff {m : Int} {l : List Int} :
    l.min? = some m ↔ m ∈ l ∧ ∀ b ∈ l, m ≤ b := by
  haveI : Std.Antisymm (fun a b : Int => a ≤ b) :=
    ⟨@fun _ _ h h2 => le_antisymm h h2⟩
  exact List.min?_eq_some_iff (fun a => le_refl a) (fun a b => min_choice a b)
    (fun a b c => le_min_iff)

theorem start_date_spec (txns : List Txn) (h : txns ≠ []) :
    (∃ t ∈ txns, t.date = start_date txns) ∧
      ∀ t ∈ txns, start_date txns ≤ t.date := by
  obtain ⟨t, ts, rfl⟩ := List.exists_cons_of_ne_nil h
  have hsome : ((t :: ts).map fun u => u.date).min? =
      some (start_date (t :: ts)) := by
    simp only [start_date, List.map_cons, List.min?]
    rfl
  have hspec := int_min?_eq_some_iff.mp hsome
  constructor
  · obtain ⟨u, hu, hud⟩ := List.mem_map.mp hspec.1
    exact ⟨u, hu, hud⟩
  · intro u hu
    exact hspec.2 _ (List.mem_map.mpr ⟨u, hu, rfl⟩)

theorem start_date_eq_of (txns : List Txn) (m : Int)
    (hmem : ∃ t ∈ txns, t.date = m) (hle : ∀ t ∈ txns, m ≤ t.date) :
    start_date txns = m := by
  have hsome : (txns.map fun u => u.date).min? = some m := by
    refine int_min?_eq_some_iff.mpr ⟨?_, ?_⟩
    · obtain ⟨t, ht, htd⟩ := hmem
      exact List.mem_map.mpr ⟨t, ht, htd⟩
    · intro b hb
      obtain ⟨u, hu, rfl⟩ := List.mem_map.mp hb
      exact hle u hu
  simp [start_date, hsome]

/-! ## Summation lemmas for `daily_net` -/

theorem daily_net_nil (d : Int) : daily_net [] d = 0 := rfl

theorem daily_net_cons (t : Txn) (txns : List Txn) (d : Int) :
    daily_net (t :: txns) d =
      (if t.date = d then signed_amount t else 0) + daily_net txns d := by
  by_cases h : t.date = d <;> simp [daily_net, List.filter_cons, h]

theorem sum_map_ite_single (x : Int) (v : Rat) :
    ∀ dates : List Int, dates.Nodup →
      ((dates.map fun d => if x = d then v else 0).sum) =
        if x ∈ dates then v else 0 := by
  intro dates hnd
  induction dates with
  | nil => simp
  | cons d ds ih =>
    rcases List.nodup_cons.mp hnd with ⟨hd, hds⟩
    by_cases hx : x = d
    · subst hx
      have hzero : ((ds.map fun d => if x = d then v else 0).sum) = 0 := by
        apply List.sum_eq_zero
        intro y hy
        obtain ⟨d2, hd2, rfl⟩ := List.mem_map.mp hy
        have hne : x ≠ d2 := fun h => hd (h ▸ hd2)
        simp [hne]
      simp [hzero]
    · simp [hx, ih hds]

theorem sum_daily_net (dates : List Int) (hnd : dates.Nodup) :
    ∀ txns : List Txn,
      ((dates.map fun d => daily_net txns d).sum) =
        (((txns.filter fun t => decide (t.date ∈ dates)).map
          signed_amount).sum) := by
  intro txns
  induction txns with
  | nil => simp [daily_net_nil]
  | cons t ts ih =>
    simp only [daily_net_cons, List.sum_map_add, ih, List.filter_cons]
    rw [sum_map_ite_single t.date (signed_amount t) dates hnd]
    by_cases hm : t.date ∈ dates <;> simp [hm]

theorem date_range_nodup (txns : List Txn) : (date_range txns).Nodup := by
  unfold date_range
  refine List.Nodup.map ?_ (List.nodup_range 90)
  intro a b hab
  dsimp only at hab
  omega

theorem mem_date_range_iff {txns : List Txn} {d : Int} :
    d ∈ date_range txns ↔
      start_date txns ≤ d ∧ d ≤ start_date txns + 89 := by
  unfold date_range
  simp only [List.mem_map, List.mem_range]
  constructor
  · rintro ⟨i, hi, rfl⟩
    omega
  · rintro ⟨h1, h2⟩
    exact ⟨(d - start_date txns).toNat, by omega, by omega⟩

/-! ## C1: shape of the forecast sequence -/

/-- C1: for every non-empty ledger the forecast has exactly 90 rows, row
`i` carries date `start_date + i` (hence strictly increasing consecutive
dates, +1 day each), and `start_date` is the earliest transaction date of
the ledger. -/
theorem forecast_ninety_consecutive_days (sb : Rat) (txns : List Txn)
    (h : txns ≠ []) :
    (forecast_df sb txns).length = 90 ∧
      (∀ (i : Nat) (hi : i < (forecast_df sb txns).length),
        ((forecast_df sb txns).get ⟨i, hi⟩).date = start_date txns + (i : Int)) ∧
      (∃ t ∈ txns, t.date = start_date txns) ∧
      (∀ t ∈ txns, start_date txns ≤ t.date) := by
  refine ⟨forecast_df_length sb txns, ?_, (start_date_spec txns h).1,
    (start_date_spec txns h).2⟩
  intro i hi
  have hj : i < (date_range txns).length := by
    rw [← forecastAux_length txns sb]; exact hi
  have hget := forecastAux_get txns (date_range txns) sb i hj
  unfold forecast_df
  simp only [hget]
  simp [date_range]

/-- C1 (witness): the concrete one-row ledger is non-empty and its
forecast has 90 rows. -/
theorem forecast_ninety_consecutive_days_witness :
    incomeLedger ≠ [] ∧ (forecast_df 0 incomeLedger).length = 90 :=
  ⟨List.cons_ne_nil _ _,
    (forecast_ninety_consecutive_days 0 incomeLedger (List.cons_ne_nil _ _)).1⟩

/-! ## C2: the balance recurrence -/

/-- C2: for every non-empty ledger and starting balance, the first
forecast balance is `starting_balance + daily_net[0]` and every later
balance is the previous balance plus that day's net. -/
theorem forecast_balance_recurrence (sb : Rat) (txns : List Txn)
    (h : txns ≠ []) :
    (∀ (h0 : 0 < (forecast_df sb txns).length),
        ((forecast_df sb txns).get ⟨0, h0⟩).balance =
          sb + ((forecast_df sb txns).get ⟨0, h0⟩).daily_net) ∧
      (∀ (i : Nat) (hi : i + 1 < (forecast_df sb txns).length),
        ((forecast_df sb txns).get ⟨i + 1, hi⟩).balance =
          ((forecast_df sb txns).get ⟨i, Nat.lt_of_succ_lt hi⟩).balance +
            ((forecast_df sb txns).get ⟨i + 1, hi⟩).daily_net) := by
  constructor
  · intro h0
    have hj : 0 < (date_range txns).length := by
      rw [← forecastAux_length txns sb]; exact h0
    have hget := forecastAux_get txns (date_range txns) sb 0 hj
    unfold forecast_df
    simp only [hget]
    have hsum := List.sum_take_succ ((date_range txns).map (daily_net txns)) 0
      (by simpa using hj)
    rw [List.map_take, hsum]
    simp
  · intro i hi
    have hj : i + 1 < (date_range txns).length := by
      rw [← forecastAux_length txns sb]; exact hi
    have hj0 : i < (date_range txns).length := Nat.lt_of_succ_lt hj
    have hget1 := forecastAux_get txns (date_range txns) sb (i + 1) hj
    have hget0 := forecastAux_get txns (date_range txns) sb i hj0
    unfold forecast_df
    simp only [hget1, hget0]
    have hsum := List.sum_take_succ ((date_range txns).map (daily_net txns))
      (i + 1) (by simpa using hj)
    rw [List.map_take, List.map_take, hsum]
    simp [add_assoc]

/-- C2 (witness): concrete instance of the base case on `incomeLedger`. -/
theorem forecast_balance_recurrence_witness :
    incomeLedger ≠ [] ∧
      ((forecast_df 100 incomeLedger).get
          ⟨0, by rw [forecast_df_length]; omega⟩).balance =
        100 + ((forecast_df 100 incomeLedger).get
          ⟨0, by rw [forecast_df_length]; omega⟩).daily_net :=
  ⟨List.cons_ne_nil _ _,
    (forecast_balance_recurrence 100 incomeLedger (List.cons_ne_nil _ _)).1 _⟩

/-! ## C3: `daily_net` partitions the in-horizon ledger -/

/-- C3: each forecast row's `daily_net` is the sum of `signed_amount` over
exactly the transactions dated on that row's date (`0` when none), and the
sum of `daily_net` over the whole horizon equals the sum of
`signed_amount` over the in-horizon transactions (round-trip). -/
theorem daily_net_partitions_ledger (sb : Rat) (txns : List Txn)
    (h : txns ≠ []) :
    (∀ (i : Nat) (hi : i < (forecast_df sb txns).length),
        ((forecast_df sb txns).get ⟨i, hi⟩).daily_net =
          (((txns.filter fun t =>
              t.date == ((forecast_df sb txns).get ⟨i, hi⟩).date).map
            signed_amount).sum)) ∧
      ((forecast_df sb txns).map fun e => e.daily_net).sum =
        (((txns.filter (inHorizon txns)).map signed_amount).sum) := by
  constructor
  · intro i hi
    have hj : i < (date_range txns).length := by
      rw [← forecastAux_length txns sb]; exact hi
    have hget := forecastAux_get txns (date_range txns) sb i hj
    unfold forecast_df
    simp only [hget]
    rfl
  · unfold forecast_df
    rw [forecastAux_map_net]
    rw [sum_daily_net (date_range txns) (date_range_nodup txns) txns]
    have hfc : (txns.filter fun t => decide (t.date ∈ date_range txns)) =
        txns.filter (inHorizon txns) := by
      apply List.filter_congr
      intro t ht
      rw [inHorizon]
      exact decide_eq_decide.mpr mem_date_range_iff
    rw [hfc]

/-- C3 (witness): the round-trip identity on the concrete one-row
ledger. -/
theorem daily_net_partitions_ledger_witness :
    incomeLedger ≠ [] ∧
      ((forecast_df 0 incomeLedger).map fun e => e.daily_net).sum =
        (((incomeLedger.filter (inHorizon incomeLedger)).map
          signed_amount).sum) :=
  ⟨List.cons_ne_nil _ _,
    (daily_net_partitions_ledger 0 incomeLedger (List.cons_ne_nil _ _)).2⟩

/-! ## C5: the recurrence detector emits only qualifying counterparties -/

/-- C5: every record the recurrence detector emits is for a counterparty
with at least 3 expense transactions whose average consecutive-date gap
lies in `[5, 45]`; equivalently, no record is ever emitted for a
counterparty failing either condition. -/
theorem recurring_records_only_qualifying (txns : List Txn)
    (r : RecurringRecord) (hr : r ∈ recurring_records txns) :
    3 ≤ (vendor_group (expenses_only txns) r.vendor).length ∧
      5 ≤ avg_gap_of (vendor_group (expenses_only txns) r.vendor) ∧
      avg_gap_of (vendor_group (expenses_only txns) r.vendor) ≤ 45 := by
  unfold recurring_records at hr
  obtain ⟨v, hv, hpv⟩ := List.mem_filterMap.mp hr
  unfold processVendor at hpv
  split_ifs at hpv with h1 h2 h3 h4
  injection hpv with hpv2
  subst hpv2
  push_neg at h1 h4
  exact ⟨h1, h4.1, h4.2⟩

/-- C5 (witness): the monthly `rentLedger` produces its record and the
record's counterparty indeed qualifies. -/
theorem recurring_records_only_qualifying_witness :
    rentRecord ∈ recurring_records rentLedger ∧
      (3 ≤ (vendor_group (expenses_only rentLedger) rentRecord.vendor).length ∧
        5 ≤ avg_gap_of (vendor_group (expenses_only rentLedger) rentRecord.vendor) ∧
        avg_gap_of (vendor_group (expenses_only rentLedger) rentRecord.vendor) ≤ 45) :=
  ⟨by with_unfolding_all decide,
    recurring_records_only_qualifying rentLedger rentRecord
      (by with_unfolding_all decide)⟩

/-! ## C7: the top-expense-days table -/

/-- C7: `top_expense_days` contains only forecast rows with negative
`daily_net`, has at most 10 rows, and is sorted by `abs(daily_net)`
descending. -/
theorem top_expense_days_spec (sb : Rat) (txns : List Txn) :
    (∀ e ∈ top_expense_days sb txns, e.daily_net < 0) ∧
      (top_expense_days sb txns).length ≤ 10 ∧
      (top_expense_days sb txns).Pairwise
        (fun a b => |b.daily_net| ≤ |a.daily_net|) := by
  refine ⟨?_, ?_, ?_⟩
  · intro e he
    have h1 : e ∈ (expense_days sb txns).mergeSort
        (fun a b => decide (|b.daily_net| ≤ |a.daily_net|)) :=
      List.mem_of_mem_take he
    have h2 : e ∈ expense_days sb txns :=
      (List.mergeSort_perm (expense_days sb txns) _).mem_iff.mp h1
    unfold expense_days at h2
    have h3 := (List.mem_filter.mp h2).2
    exact of_decide_eq_true h3
  · rw [top_expense_days, List.length_take]
    exact min_le_left 10 _
  · have hs := @List.sorted_mergeSort ForecastEntry
      (fun a b => decide (|b.daily_net| ≤ |a.daily_net|))
      (fun a b c hab hbc =>
        decide_eq_true (le_trans (of_decide_eq_true hbc) (of_decide_eq_true hab)))
      (fun a b => by
        rcases le_total |b.daily_net| |a.daily_net| with hle | hle <;>
          simp [hle])
      (expense_days sb txns)
    have hp := List.Pairwise.sublist (List.take_sublist 10 _) hs
    exact hp.imp fun hab => of_decide_eq_true hab

/-! ## Permutation and filtering lemmas for the horizon -/

theorem daily_net_perm {l₁ l₂ : List Txn} (h : List.Perm l₁ l₂) (d : Int) :
    daily_net l₁ d = daily_net l₂ d :=
  List.Perm.sum_eq (List.Perm.map signed_amount
    (List.Perm.filter (fun t => t.date == d) h))

theorem start_date_perm {l₁ l₂ : List Txn} (h : List.Perm l₁ l₂) :
    start_date l₁ = start_date l₂ := by
  cases l₁ with
  | nil =>
    have h2 : l₂ = [] := List.Perm.eq_nil (List.Perm.symm h)
    rw [h2]
  | cons t ts =>
    have spec := start_date_spec (t :: ts) (List.cons_ne_nil t ts)
    obtain ⟨⟨u, hu, hud⟩, hle⟩ := spec
    have := start_date_eq_of l₂ (start_date (t :: ts))
      ⟨u, List.Perm.subset h hu, hud⟩
      (fun w hw => hle w (List.Perm.subset (List.Perm.symm h) hw))
    exact this.symm

theorem start_date_filter_inHorizon (txns : List Txn) (h : txns ≠ []) :
    start_date (txns.filter (inHorizon txns)) = start_date txns := by
  obtain ⟨⟨t, ht, htd⟩, hle⟩ := start_date_spec txns h
  have htf : t ∈ txns.filter (inHorizon txns) := by
    refine List.mem_filter.mpr ⟨ht, ?_⟩
    rw [inHorizon]
    exact decide_eq_true ⟨by omega, by omega⟩
  exact start_date_eq_of _ (start_date txns) ⟨t, htf, htd⟩
    (fun u hu => hle u (List.mem_of_mem_filter hu))

theorem daily_net_filter_inHorizon (txns : List Txn) (d : Int)
    (hd1 : start_date txns ≤ d) (hd2 : d ≤ start_date txns + 89) :
    daily_net (txns.filter (inHorizon txns)) d = daily_net txns d := by
  unfold daily_net
  rw [List.filter_filter]
  have hfc : (txns.filter fun a => (a.date == d) && inHorizon txns a) =
      txns.filter fun a => a.date == d := by
    apply List.filter_congr
    intro t ht
    by_cases hb : t.date = d
    · have : inHorizon txns t = true := by
        rw [inHorizon]
        exact decide_eq_true ⟨by omega, by omega⟩
      simp [hb, this]
    · simp [hb]
  rw [hfc]

theorem forecastAux_congr (A B : List Txn) (days : List Int)
    (h : ∀ d ∈ days, daily_net A d = daily_net B d) :
    ∀ bal, forecastAux A bal days = forecastAux B bal days := by
  induction days with
  | nil => intro bal; rfl
  | cons d rest ih =>
    intro bal
    have hd := h d (List.mem_cons_self d rest)
    have hrest := ih fun x hx => h x (List.mem_cons_of_mem d hx)
    simp [forecastAux, hd, hrest]

/-! ## C9: out-of-horizon transactions are irrelevant -/

/-- C9: two non-empty ledgers that agree (up to order) on their in-horizon
transactions produce identical 90-day forecasts: transactions dated after
`start_date + 89` are silently dropped and have no effect on `daily_net`
or `balance`. -/
theorem forecast_ignores_out_of_horizon (sb : Rat) (A B : List Txn)
    (hA : A ≠ []) (hB : B ≠ [])
    (hperm : List.Perm (A.filter (inHorizon A)) (B.filter (inHorizon B))) :
    forecast_df sb A = forecast_df sb B := by
  have hstart : start_date A = start_date B := by
    rw [← start_date_filter_inHorizon A hA, ← start_date_filter_inHorizon B hB]
    exact start_date_perm hperm
  have hnet : ∀ d ∈ date_range A, daily_net A d = daily_net B d := by
    intro d hd
    obtain ⟨hd1, hd2⟩ := mem_date_range_iff.mp hd
    rw [← daily_net_filter_inHorizon A d hd1 hd2,
      ← daily_net_filter_inHorizon B d (by omega) (by omega)]
    exact daily_net_perm hperm d
  have hrange : date_range A = date_range B := by
    unfold date_range
    rw [hstart]
  unfold forecast_df
  rw [← hrange]
  exact forecastAux_congr A B (date_range A) hnet sb

/-- C9 (witness): dropping a day-200 transaction from a day-0 ledger does
not change the forecast. -/
theorem forecast_ignores_out_of_horizon_witness :
    horizonLedgerA ≠ [] ∧ horizonLedgerB ≠ [] ∧
      List.Perm (horizonLedgerA.filter (inHorizon horizonLedgerA))
        (horizonLedgerB.filter (inHorizon horizonLedgerB)) ∧
      forecast_df 5 horizonLedgerA = forecast_df 5 horizonLedgerB :=
  ⟨List.cons_ne_nil _ _, List.cons_ne_nil _ _,
    by with_unfolding_all decide,
    forecast_ignores_out_of_horizon 5 horizonLedgerA horizonLedgerB
      (List.cons_ne_nil _ _) (List.cons_ne_nil _ _)
      (by with_unfolding_all decide)⟩

/-! ## C10: negative amounts are not validated -/

/-- C10: the normaliser never rejects a negative amount: an `"expense"`
row with amount `a < 0` gets `signed_amount = -a > 0`, its day's
`daily_net` in a one-row ledger is `-a > 0`, and the first projected
balance is `starting_balance - a`, i.e. strictly above the starting
balance instead of below it. -/
theorem negative_expense_inflates_balance (t : Txn)
    (hty : lower t.type = "expense") (hneg : t.amount < 0) :
    signed_amount t = -t.amount ∧ 0 < signed_amount t ∧
      daily_net [t] t.date = -t.amount ∧
      ∀ sb : Rat,
        ((forecast_df sb [t]).get ⟨0, by rw [forecast_df_length]; omega⟩).balance =
          sb + -t.amount := by
  have h1 : signed_amount t = -t.amount := by simp [signed_amount, hty]
  have hdn : daily_net [t] t.date = -t.amount := by
    simp [daily_net, h1]
  refine ⟨h1, by rw [h1]; linarith, hdn, ?_⟩
  intro sb
  have hs : start_date [t] = t.date := by
    simp [start_date, List.min?]
  have h0 : 0 < (date_range [t]).length := by
    simp [date_range]
  have hget := forecastAux_get [t] (date_range [t]) sb 0 h0
  unfold forecast_df
  simp only [hget]
  have hsum := List.sum_take_succ ((date_range [t]).map (daily_net [t])) 0
    (by simpa using h0)
  rw [List.map_take, hsum]
  have hd0 : (date_range [t]).get ⟨0, h0⟩ = t.date := by
    simp [date_range, hs]
  rw [List.get_eq_getElem] at hd0
  simp [hd0, hdn]

/-- C10 (witness): a concrete expense of −50 yields `signed_amount = 50`
and a positive one-row `daily_net`. -/
theorem negative_expense_inflates_balance_witness :
    (lower "expense" = "expense" ∧ (-50 : Rat) < 0) ∧
      (signed_amount ⟨0, "expense", -50, none⟩ = -(-50) ∧
        0 < signed_amount ⟨0, "expense", -50, none⟩ ∧
        daily_net [⟨0, "expense", -50, none⟩] 0 = -(-50) ∧
        ∀ sb : Rat,
          ((forecast_df sb [⟨0, "expense", -50, none⟩]).get
              ⟨0, by rw [forecast_df_length]; omega⟩).balance =
            sb + -(-50)) :=
  ⟨⟨by decide, by norm_num⟩,
    negative_expense_inflates_balance ⟨0, "expense", -50, none⟩
      (by decide) (by norm_num)⟩
